import Mathlib

set_option maxHeartbeats 1000000

/-! Verification development for the version-coordination (master), transaction-tag
throttling (GRV proxy) and load-balanced RPC dispatch subsystems of this
FoundationDB source tree.  The definitions below are shallow embeddings of the
corresponding source functions; floating-point clock values are modelled as
rationals, machine integers as Int/Nat with explicit wrapping where it matters,
and each fallible or suspending code path is an explicit constructor of an
outcome type. -/

/-- Truncation of a rational toward zero, modelling the Swift and C++ narrowing
conversions from a double to a 64-bit integer (Version(someDouble),
Int64(someDouble)). -/
def truncQ (q : ℚ) : Int := if 0 ≤ q then ⌊q⌋ else ⌈q⌉

/-- Association-list lookup keyed by natural numbers; models lookups in a Swift
dictionary or a C++ map keyed by UID / request number / transaction tag. -/
def alookup {α : Type} : List (Nat × α) → Nat → Option α
  | [], _ => none
  | (k, v) :: rest, t => if k = t then some v else alookup rest t

/-- Map-style in-place update of the binding of a key that is already present
(a write through an iterator or stored pointer): replace the first binding of
the key, leave everything else in place. -/
def aset {α : Type} : List (Nat × α) → Nat → α → List (Nat × α)
  | [], _, _ => []
  | p :: rest, k, v => if p.1 = k then (k, v) :: rest else p :: aset rest k v

/-- Dictionary assignment: replace the binding of the key if present, insert it
otherwise.  Only lookups are observed on these maps, so the position of the
new binding is irrelevant. -/
def aInsert {α : Type} (l : List (Nat × α)) (k : Nat) (v : α) : List (Nat × α) :=
  (k, v) :: l.filter (fun p => p.1 ≠ k)

/-! ### Version coordination (masterserver.swift) -/

abbrev Version := Int

def invalidVersion : Version := -1

/-- The server knobs read by the master code.  Their values are configuration,
so they are parameters of the embedding. -/
structure ServerKnobs where
  VERSIONS_PER_SECOND : Int
  MAX_READ_TRANSACTION_LIFE_VERSIONS : Int
  MAX_VERSION_RATE_MODIFIER : ℚ
  MAX_VERSION_RATE_OFFSET : Int
  ENABLE_VERSION_VECTOR : Bool
  ENABLE_VERSION_VECTOR_HA_OPTIMIZATION : Bool
deriving DecidableEq

/-- clamp from masterserver.swift: max(min(v, upperBound), lowerBound). -/
def clamp (v : Version) (lowerBound upperBound : Version) : Version :=
  max (min v upperBound) lowerBound

/-- figureVersion from masterserver.swift.  The wall clock reading now is a
rational; the two double-to-Version casts of the source are truncQ. -/
def figureVersion (k : ServerKnobs) (current : Version) (now : ℚ) (reference : Version)
    (toAdd : Int) (maxVersionRateModifier : ℚ) (maxVersionRateOffset : Int) : Version :=
  let expected := truncQ (now * (k.VERSIONS_PER_SECOND : ℚ)) - reference
  let maxOffset := min (truncQ ((toAdd : ℚ) * maxVersionRateModifier)) maxVersionRateOffset
  clamp expected (current + toAdd - maxOffset) (current + toAdd + maxOffset)

/-- The MasterData fields touched by the embedded operations.  The version
vector and the resolution balancer are external classes; their updates are
recorded as abstract state (see updateLiveCommittedVersion and
updateRecoveryData). -/
structure MasterData where
  version : Version
  lastVersionTime : ℚ
  lastEpochEnd : Version
  recoveryTransactionVersion : Version
  referenceVersion : Option Version
  liveCommittedVersion : Version
  minKnownCommittedVersion : Version
  databaseLocked : Bool
  proxyMetadataVersion : Option Int
  locality : Int
  ssVersionVector : List (List Nat × Version)
  getCommitVersionRequests : Nat
  reportLiveCommittedVersionRequests : Nat
  balancerCommitProxies : List Nat
  balancerResolvers : List Nat
deriving DecidableEq

structure ReportRawCommittedVersionRequest where
  version : Version
  prevVersion : Option Version
  minKnownCommittedVersion : Version
  locked : Bool
  metadataVersion : Option Int
  writtenTags : Option (List Nat)
deriving DecidableEq

/-- updateLiveCommittedVersion from masterserver.swift.  The two
debug_advanceVersionTimestamp calls only feed a debug facility and are not
state; ssVersionVector.setVersion is external (VersionVector.h), modelled as
recording the written tags and version. -/
def updateLiveCommittedVersion (k : ServerKnobs) (myself : MasterData)
    (req : ReportRawCommittedVersionRequest) : MasterData :=
  let m1 := { myself with
    minKnownCommittedVersion := max myself.minKnownCommittedVersion req.minKnownCommittedVersion }
  let m2 :=
    if m1.liveCommittedVersion < req.version then
      let m1 :=
        match req.writtenTags with
        | some writtenTags =>
          if k.ENABLE_VERSION_VECTOR then
            { m1 with ssVersionVector := (writtenTags, req.version) :: m1.ssVersionVector }
          else m1
        | none => m1
      { m1 with databaseLocked := req.locked,
                proxyMetadataVersion := req.metadataVersion,
                liveCommittedVersion := req.version }
    else m1
  { m2 with reportLiveCommittedVersionRequests := m2.reportLiveCommittedVersionRequests + 1 }

structure GetCommitVersionReply where
  version : Version
  prevVersion : Version
  requestNum : Nat
deriving DecidableEq

/-- CommitProxyVersionReplies from masterserver.swift: the cached replies keyed
by request number and the notified latestRequestNum counter (an Int, set from
the served request number). -/
structure CommitProxyVersionReplies where
  replies : List (Nat × GetCommitVersionReply)
  latestRequestNum : Int
deriving DecidableEq

/-- The actor state: the per-proxy reply caches, keyed by proxy UID. -/
structure MasterDataActor where
  lastCommitProxyVersionReplies : List (Nat × CommitProxyVersionReplies)
deriving DecidableEq

/-- registerLastCommitProxyVersionReplies: replace the whole map, giving every
listed proxy a fresh empty cache with latestRequestNum 0. -/
def MasterDataActor.registerLastCommitProxyVersionReplies (uids : List Nat) : MasterDataActor :=
  ⟨uids.map (fun uid => (uid, ⟨[], 0⟩))⟩

structure GetCommitVersionRequest where
  requestingProxy : Nat
  requestNum : Nat
  mostRecentProcessedRequestNum : Nat
deriving DecidableEq

/-- Result of one getVersion call.  blocked is the case in which the atLeast
wait on latestRequestNum has not completed, so the call is still suspended;
stale is the sendNever path; invalidProxy is the nil return for an
unregistered proxy. -/
inductive GetVersionOutcome
  | invalidProxy
  | blocked
  | cached (rep : GetCommitVersionReply)
  | stale
  | fresh (rep : GetCommitVersionReply)
deriving DecidableEq

/-- The threshold req.requestNum - UInt64(1) used for the atLeast wait:
UInt64 subtraction wraps at zero. -/
def uint64SubOne (n : Nat) : Int := if n = 0 then 2 ^ 64 - 1 else (n : Int) - 1

/-- The version-advance block of getVersion (masterserver.swift): the branch on
version == invalidVersion, the computation of toAdd, and the referenceVersion
branch.  Returns the updated MasterData and the value stored in
rep.prevVersion.  tNow is the now() reading; under BUGGIFY the source replaces
t1 by lastVersionTime; timerNow is the SwiftGNetwork.timer() reading passed to
figureVersion. -/
def freshAdvance (k : ServerKnobs) (m : MasterData) (buggify : Bool) (tNow timerNow : ℚ) :
    MasterData × Version :=
  if m.version = invalidVersion then
    ({ m with lastVersionTime := tNow, version := m.recoveryTransactionVersion }, m.lastEpochEnd)
  else
    let t1 := if buggify then m.lastVersionTime else tNow
    let toAdd := max 1 (min k.MAX_READ_TRANSACTION_LIFE_VERSIONS
        (truncQ ((k.VERSIONS_PER_SECOND : ℚ) * (t1 - m.lastVersionTime))))
    let newVersion :=
      match m.referenceVersion with
      | some referenceVersion =>
        figureVersion k m.version timerNow referenceVersion toAdd
          k.MAX_VERSION_RATE_MODIFIER k.MAX_VERSION_RATE_OFFSET
      | none => m.version + toAdd
    ({ m with version := newVersion, lastVersionTime := t1 }, m.version)

/-- MasterDataActor.getVersion from masterserver.swift.  The call to
getResolutionBalancer().setChangesInReply only fills the reply's
resolverChanges, which none of the verified properties mention, so that field
is not modelled. -/
def MasterDataActor.getVersion (k : ServerKnobs) (st : MasterDataActor) (m : MasterData)
    (req : GetCommitVersionRequest) (buggify : Bool) (tNow timerNow : ℚ) :
    GetVersionOutcome × MasterDataActor × MasterData :=
  let m := { m with getCommitVersionRequests := m.getCommitVersionRequests + 1 }
  match alookup st.lastCommitProxyVersionReplies req.requestingProxy with
  | none => (GetVersionOutcome.invalidProxy, st, m)
  | some lastVersionReplies =>
    if lastVersionReplies.latestRequestNum < uint64SubOne req.requestNum then
      (GetVersionOutcome.blocked, st, m)
    else
      match alookup lastVersionReplies.replies req.requestNum with
      | some lastReply => (GetVersionOutcome.cached lastReply, st, m)
      | none =>
        if (req.requestNum : Int) ≤ lastVersionReplies.latestRequestNum then
          (GetVersionOutcome.stale, st, m)
        else
          let adv := freshAdvance k m buggify tNow timerNow
          let rep : GetCommitVersionReply :=
            { version := adv.1.version, prevVersion := adv.2, requestNum := req.requestNum }
          let lvr2 : CommitProxyVersionReplies :=
            { replies := aInsert (lastVersionReplies.replies.filter
                (fun p => req.mostRecentProcessedRequestNum < p.1)) req.requestNum rep,
              latestRequestNum := (req.requestNum : Int) }
          (GetVersionOutcome.fresh rep,
           ⟨aInsert st.lastCommitProxyVersionReplies req.requestingProxy lvr2⟩,
           adv.1)

structure UpdateRecoveryDataRequest where
  recoveryTransactionVersion : Version
  lastEpochEnd : Version
  commitProxies : List Nat
  resolvers : List Nat
  versionEpoch : Option Version
  primaryLocality : Int
deriving DecidableEq

/-- MasterDataActor.updateRecoveryData from masterserver.swift.  The BUGGIFY
branch draws a random negative version epoch in simulation; both the flag and
the drawn value are inputs.  setCommitProxies / setResolvers on the resolution
balancer are recorded as the balancer fields. -/
def MasterDataActor.updateRecoveryData (st : MasterDataActor) (m : MasterData)
    (req : UpdateRecoveryDataRequest) (buggify : Bool) (simNegativeVersionEpoch : Int) :
    MasterDataActor × MasterData :=
  let m := { m with recoveryTransactionVersion := req.recoveryTransactionVersion,
                    lastEpochEnd := req.lastEpochEnd }
  let st :=
    if 0 < req.commitProxies.length then
      MasterDataActor.registerLastCommitProxyVersionReplies req.commitProxies
    else st
  let m :=
    match req.versionEpoch with
    | some versionEpoch => { m with referenceVersion := some versionEpoch }
    | none =>
      if buggify then { m with referenceVersion := some simNegativeVersionEpoch } else m
  let m := { m with balancerCommitProxies := req.commitProxies,
                    balancerResolvers := req.resolvers,
                    locality := req.primaryLocality }
  (st, m)

/-- One getVersion call of a trace: the request together with the BUGGIFY flag
and the two clock readings of that call. -/
structure CallInput where
  req : GetCommitVersionRequest
  buggify : Bool
  tNow : ℚ
  timerNow : ℚ
deriving DecidableEq

/-- One step of a getVersion trace: run the call and append the reply to the
emission log when the call computes a fresh reply (the req.reply.send path for
a newly computed reply). -/
def runStep (k : ServerKnobs)
    (acc : MasterDataActor × MasterData × List (Nat × GetCommitVersionReply))
    (c : CallInput) : MasterDataActor × MasterData × List (Nat × GetCommitVersionReply) :=
  let r := MasterDataActor.getVersion k acc.1 acc.2.1 c.req c.buggify c.tNow c.timerNow
  match r.1 with
  | GetVersionOutcome.fresh rep => (r.2.1, r.2.2, acc.2.2 ++ [(c.req.requestingProxy, rep)])
  | _ => (r.2.1, r.2.2, acc.2.2)

/-- A whole trace of getVersion calls, collecting the freshly emitted replies
tagged with the proxy they are sent to, in emission order. -/
def runCalls (k : ServerKnobs) (st : MasterDataActor) (m : MasterData)
    (calls : List CallInput) : MasterDataActor × MasterData × List (Nat × GetCommitVersionReply) :=
  List.foldl (runStep k) (st, m, []) calls

/-- The emitted replies chain: each reply's prevVersion equals the version of
the preceding reply, the first one chaining from prev. -/
def chainedFrom (prev : Version) : List (Nat × GetCommitVersionReply) → Bool
  | [] => true
  | (_, r) :: rest => if r.prevVersion = prev then chainedFrom r.version rest else false

/-- Version of the last emitted reply, or p when nothing was emitted yet. -/
def lastVer (p : Version) : List (Nat × GetCommitVersionReply) → Version
  | [] => p
  | (_, r) :: rest => lastVer r.version rest

/-- Invariant tying the master state to the log of emitted replies within one
generation: lastEpochEnd and recoveryTransactionVersion are the generation
constants le and rec, the log chains from le, every reply strictly increases,
and version is invalidVersion before the first emission and the last emitted
version (at least rec) afterwards. -/
def ChainInv (le rec : Version) (m : MasterData)
    (es : List (Nat × GetCommitVersionReply)) : Prop :=
  m.lastEpochEnd = le ∧ m.recoveryTransactionVersion = rec ∧
  chainedFrom le es = true ∧
  (∀ x ∈ es, x.2.prevVersion < x.2.version) ∧
  ((es = [] ∧ m.version = invalidVersion) ∨
   (es ≠ [] ∧ m.version = lastVer le es ∧ rec ≤ m.version))

/-! ### Transaction-tag throttling (GrvProxyTransactionTagThrottler.actor.cpp) -/

inductive TransactionPriority
  | BATCH
  | DEFAULT
  | IMMEDIATE
deriving DecidableEq

/-- The fields of GetReadVersionRequest used by the throttler: the priority,
the tag-to-count map (iteration order fixed by the list) and the
proxyTagThrottledDuration written on release.  Tags are modelled as naturals. -/
structure GetReadVersionRequest where
  priority : TransactionPriority
  tags : List (Nat × Nat)
  proxyTagThrottledDuration : ℚ
deriving DecidableEq

structure DelayedRequest where
  req : GetReadVersionRequest
  startTime : ℚ
  sequenceNumber : Int
deriving DecidableEq

/-- Modelled from the spec: GrvTransactionRateInfo (fdbserver) is not among
these sources.  The spec describes it as a token-bucket-like budget with a
per-tag rate; setRate installs a new rate, canStart admits a count when it
fits the remaining allotment, and the release window bookkeeping refills the
budget by rate times elapsed and subtracts what was released. -/
structure GrvTransactionRateInfo where
  rate : ℚ
  budget : ℚ
deriving DecidableEq

def GrvTransactionRateInfo.ofRate (rate : ℚ) : GrvTransactionRateInfo := ⟨rate, 0⟩

def GrvTransactionRateInfo.setRate (ri : GrvTransactionRateInfo) (rate : ℚ) :
    GrvTransactionRateInfo := { ri with rate := rate }

def GrvTransactionRateInfo.canStart (ri : GrvTransactionRateInfo)
    (numReleased count : Nat) : Bool :=
  ((numReleased + count : Nat) : ℚ) ≤ ri.rate + ri.budget

def GrvTransactionRateInfo.startReleaseWindow (ri : GrvTransactionRateInfo) :
    GrvTransactionRateInfo := ri

def GrvTransactionRateInfo.endReleaseWindow (ri : GrvTransactionRateInfo)
    (numReleased : Nat) (elapsed : ℚ) : GrvTransactionRateInfo :=
  { ri with budget := ri.budget + ri.rate * elapsed - (numReleased : ℚ) }

structure TagQueue where
  rateInfo : Option GrvTransactionRateInfo
  requests : List DelayedRequest
deriving DecidableEq

/-- TagQueue(rate): fresh queue with a fresh rate info. -/
def TagQueue.ofRate (rate : ℚ) : TagQueue := ⟨some (GrvTransactionRateInfo.ofRate rate), []⟩

/-- TagQueue::setRate from GrvProxyTransactionTagThrottler.actor.cpp. -/
def TagQueue.setRate (q : TagQueue) (rate : ℚ) : TagQueue :=
  match q.rateInfo with
  | some ri => { q with rateInfo := some (ri.setRate rate) }
  | none => { q with rateInfo := some (GrvTransactionRateInfo.ofRate rate) }

/-- The throttler state: the tag queues and the DelayedRequest sequence-number
counter (a static in the source, held here with the single instance). -/
structure GrvProxyTransactionTagThrottler where
  queues : List (Nat × TagQueue)
  lastSequenceNumber : Int
deriving DecidableEq

/-- First pass of updateRates: for each tag of newRates create the queue or
replace its rate. -/
def updateRatesAssign (qs : List (Nat × TagQueue)) :
    List (Nat × ℚ) → List (Nat × TagQueue)
  | [] => qs
  | (tag, rate) :: rest =>
    updateRatesAssign
      (match alookup qs tag with
       | none => qs ++ [(tag, TagQueue.ofRate rate)]
       | some q => aset qs tag (q.setRate rate)) rest

/-- Second pass of updateRates: clear the rate info of every queue whose tag
does not appear in newRates. -/
def updateRatesClean (newRates : List (Nat × ℚ)) (qs : List (Nat × TagQueue)) :
    List (Nat × TagQueue) :=
  qs.map (fun p => (p.1, if (alookup newRates p.1).isSome then p.2
                         else { p.2 with rateInfo := none }))

/-- Third pass of updateRates: erase every queue that is empty and without
rate info. -/
def updateRatesErase (qs : List (Nat × TagQueue)) : List (Nat × TagQueue) :=
  qs.filter (fun p => !(p.2.requests.isEmpty && p.2.rateInfo.isNone))

/-- GrvProxyTransactionTagThrottler::updateRates. -/
def GrvProxyTransactionTagThrottler.updateRates (thr : GrvProxyTransactionTagThrottler)
    (newRates : List (Nat × ℚ)) : GrvProxyTransactionTagThrottler :=
  { thr with queues := updateRatesErase (updateRatesClean newRates
      (updateRatesAssign thr.queues newRates)) }

/-- GrvProxyTransactionTagThrottler::size. -/
def GrvProxyTransactionTagThrottler.size (thr : GrvProxyTransactionTagThrottler) : Nat :=
  thr.queues.length

/-- GrvProxyTransactionTagThrottler::addRequest.  ASSERT(req.isTagged())
requires a non-empty tag map; queues[tag] default-constructs an empty queue
when the tag is new; the DelayedRequest constructor assigns the next global
sequence number and startTime now(). -/
def GrvProxyTransactionTagThrottler.addRequest (thr : GrvProxyTransactionTagThrottler)
    (tNow : ℚ) (req : GetReadVersionRequest) : GrvProxyTransactionTagThrottler :=
  match req.tags.head? with
  | none => thr
  | some (tag, _) =>
    let seq := thr.lastSequenceNumber + 1
    let q := (alookup thr.queues tag).getD ⟨none, []⟩
    let q2 := { q with requests := q.requests ++ [⟨req, tNow, seq⟩] }
    { queues :=
        if (alookup thr.queues tag).isSome then aset thr.queues tag q2
        else thr.queues ++ [(tag, q2)],
      lastSequenceNumber := seq }

/-- Result of the inner while loop of releaseTransactions for one tag:
assertionFailure is the ASSERT(false) on an immediate-priority request;
otherwise the remaining requests, the updated released counter, the two output
deques, and whether the TagInfo is pushed back into the priority queue. -/
inductive InnerResult
  | assertionFailure
  | finished (requests : List DelayedRequest) (numReleased : Nat)
      (outBatch outDefault : List GetReadVersionRequest) (pushBack : Bool)
deriving DecidableEq

/-- The inner while loop of releaseTransactions.  ASSERT_EQ(info.nextSeqNo,
delayedReq.sequenceNumber) holds by construction, so the front request's own
sequence number is compared against nextQueueSeqNo. -/
def releaseInner (tNow : ℚ) (rateInfo : Option GrvTransactionRateInfo) (nextQueueSeqNo : Int) :
    List DelayedRequest → Nat → List GetReadVersionRequest → List GetReadVersionRequest →
    InnerResult
  | [], numReleased, outB, outD => InnerResult.finished [] numReleased outB outD false
  | dr :: rest, numReleased, outB, outD =>
    let count := (dr.req.tags.head?.map Prod.snd).getD 0
    if (match rateInfo with
        | some ri => !(ri.canStart numReleased count)
        | none => false) then
      InnerResult.finished (dr :: rest) numReleased outB outD false
    else if dr.sequenceNumber < nextQueueSeqNo then
      let released := { dr.req with proxyTagThrottledDuration := tNow - dr.startTime }
      match dr.req.priority with
      | TransactionPriority.BATCH =>
        releaseInner tNow rateInfo nextQueueSeqNo rest (numReleased + count)
          (outB ++ [released]) outD
      | TransactionPriority.DEFAULT =>
        releaseInner tNow rateInfo nextQueueSeqNo rest (numReleased + count)
          outB (outD ++ [released])
      | TransactionPriority.IMMEDIATE => InnerResult.assertionFailure
    else InnerResult.finished (dr :: rest) numReleased outB outD true

/-- Pop the greatest element of the TagInfo priority queue: std::priority_queue
with the source's TagInfo::operator< (comparing nextSeqNo with less-than) is a
max-heap, so top() is the entry with the greatest front sequence number. -/
def popMaxSeq : List (Nat × Int) → Option ((Nat × Int) × List (Nat × Int))
  | [] => none
  | x :: xs =>
    match popMaxSeq xs with
    | none => some (x, [])
    | some (y, rest) => if y.2 ≤ x.2 then some (x, xs) else some (y, x :: rest)

def int64Max : Int := 2 ^ 63 - 1

/-- Mutable state of the outer while loop of releaseTransactions. -/
structure ReleaseState where
  queues : List (Nat × TagQueue)
  released : List (Nat × Nat)
  outBatchPriority : List GetReadVersionRequest
  outDefaultPriority : List GetReadVersionRequest
deriving DecidableEq

inductive ReleaseLoopResult
  | outOfFuel
  | assertionFailure
  | finished (s : ReleaseState)
deriving DecidableEq

/-- The outer while loop of releaseTransactions, with fuel counting iterations:
the source loop has no bound of its own. -/
def releaseLoop (tNow : ℚ) : Nat → List (Nat × Int) → ReleaseState → ReleaseLoopResult
  | fuel, pq, s =>
    match popMaxSeq pq with
    | none => ReleaseLoopResult.finished s
    | some ((tag, _), pq2) =>
      match fuel with
      | 0 => ReleaseLoopResult.outOfFuel
      | fuel + 1 =>
        let nextQueueSeqNo :=
          match popMaxSeq pq2 with
          | none => int64Max
          | some (y, _) => y.2
        let q := (alookup s.queues tag).getD ⟨none, []⟩
        let numReleased := (alookup s.released tag).getD 0
        match releaseInner tNow q.rateInfo nextQueueSeqNo q.requests numReleased
            s.outBatchPriority s.outDefaultPriority with
        | InnerResult.assertionFailure => ReleaseLoopResult.assertionFailure
        | InnerResult.finished reqs2 numReleased2 outB2 outD2 pushBack =>
          releaseLoop tNow fuel
            (if pushBack then
               pq2 ++ [(tag, ((reqs2.head?.map DelayedRequest.sequenceNumber).getD 0))]
             else pq2)
            ⟨aset s.queues tag { q with requests := reqs2 },
             aset s.released tag numReleased2, outB2, outD2⟩

inductive ReleaseOutcome
  | outOfFuel
  | assertionFailure
  | finished (thr : GrvProxyTransactionTagThrottler)
      (outBatch outDefault : List GetReadVersionRequest)
deriving DecidableEq

/-- GrvProxyTransactionTagThrottler::releaseTransactions: start the release
windows, build the transactionsReleased counters and the priority queue from
the non-empty queues, run the loop, and close the release windows. -/
def GrvProxyTransactionTagThrottler.releaseTransactions (fuel : Nat) (elapsed tNow : ℚ)
    (thr : GrvProxyTransactionTagThrottler) : ReleaseOutcome :=
  let queues1 := thr.queues.map (fun p =>
    (p.1, { p.2 with rateInfo := p.2.rateInfo.map GrvTransactionRateInfo.startReleaseWindow }))
  let nonEmpty := queues1.filter (fun p => !p.2.requests.isEmpty)
  let released0 := nonEmpty.map (fun p => (p.1, 0))
  let pq0 := nonEmpty.map (fun p =>
    (p.1, ((p.2.requests.head?.map DelayedRequest.sequenceNumber).getD 0)))
  match releaseLoop tNow fuel pq0 ⟨queues1, released0, [], []⟩ with
  | ReleaseLoopResult.outOfFuel => ReleaseOutcome.outOfFuel
  | ReleaseLoopResult.assertionFailure => ReleaseOutcome.assertionFailure
  | ReleaseLoopResult.finished s =>
    let finalQueues := s.queues.map (fun p =>
      (p.1, { p.2 with rateInfo :=
          p.2.rateInfo.map (fun ri => ri.endReleaseWindow ((alookup s.released p.1).getD 0) elapsed) }))
    ReleaseOutcome.finished ⟨finalQueues, thr.lastSequenceNumber⟩
      s.outBatchPriority s.outDefaultPriority

/-! ### Load-balanced RPC dispatch (fdbrpc/LoadBalance.actor.h) -/

/-- The error codes distinguished by RequestData::checkAndProcessResultImpl;
all remaining codes behave alike there and are collected by other. -/
inductive ErrorCode
  | success
  | broken_promise
  | request_maybe_delivered
  | server_overloaded
  | future_version
  | process_behind
  | other (code : Nat)
deriving DecidableEq

/-- A LoadBalancedReply header: the server-declared penalty and an optional
inner error. -/
structure LoadBalancedReply where
  penalty : ℚ
  error : Option ErrorCode
deriving DecidableEq

/-- A reply payload as seen by getLoadBalancedReply: either it carries a
LoadBalancedReply header or it does not. -/
inductive ReplyPayload
  | withHeader (r : LoadBalancedReply)
  | plain
deriving DecidableEq

/-- ErrorOr of a reply: a delivered payload or a transport-level error. -/
inductive ReplyResult
  | value (p : ReplyPayload)
  | failure (e : ErrorCode)
deriving DecidableEq

/-- result.present() of ErrorOr. -/
def ReplyResult.present : ReplyResult → Bool
  | ReplyResult.value _ => true
  | ReplyResult.failure _ => false

/-- The loadBalancedReply local of checkAndProcessResultImpl:
getLoadBalancedReply(result.get()) when the result is not an error. -/
def lbrOf : ReplyResult → Option LoadBalancedReply
  | ReplyResult.value (ReplyPayload.withHeader r) => some r
  | ReplyResult.value ReplyPayload.plain => none
  | ReplyResult.failure _ => none

/-- The errCode local of checkAndProcessResultImpl: the inner error of the
LoadBalancedReply when the header is present, the transport error otherwise. -/
def effectiveErrorCode (result : ReplyResult) : ErrorCode :=
  match lbrOf result with
  | some l => l.error.getD ErrorCode.success
  | none =>
    match result with
    | ReplyResult.failure e => e
    | ReplyResult.value _ => ErrorCode.success

inductive CheckOutcome
  | delivered
  | retry
  | fail (e : ErrorCode)
deriving DecidableEq

/-- The observable result of checkAndProcessResultImpl: the classification
returned to loadBalance together with the arguments passed to
ModelHolder::release. -/
structure CheckResult where
  outcome : CheckOutcome
  releaseClean : Bool
  releaseFutureVersion : Bool
  releasePenalty : ℚ
deriving DecidableEq

/-- RequestData::checkAndProcessResultImpl from LoadBalance.actor.h. -/
def checkAndProcessResultImpl (result : ReplyResult) (atMostOnce triedAllOptions : Bool) :
    CheckResult :=
  let loadBalancedReply := lbrOf result
  let errCode := effectiveErrorCode result
  let maybeDelivered := errCode == ErrorCode.broken_promise ||
    errCode == ErrorCode.request_maybe_delivered
  let receivedResponse0 :=
    match loadBalancedReply with
    | some l => l.error.isNone
    | none => result.present
  let receivedResponse := receivedResponse0 ||
    (!maybeDelivered && !(errCode == ErrorCode.process_behind))
  let futureVersion := errCode == ErrorCode.future_version ||
    errCode == ErrorCode.process_behind
  let penalty :=
    match loadBalancedReply with
    | some l => l.penalty
    | none => -1
  let outcome :=
    if errCode == ErrorCode.server_overloaded then CheckOutcome.retry
    else if (match loadBalancedReply with
             | some l => l.error.isNone
             | none => false) then CheckOutcome.delivered
    else if loadBalancedReply.isNone && result.present then CheckOutcome.delivered
    else if receivedResponse then
      CheckOutcome.fail
        (match loadBalancedReply with
         | some l => l.error.getD ErrorCode.success
         | none =>
           match result with
           | ReplyResult.failure e => e
           | ReplyResult.value _ => ErrorCode.success)
    else if atMostOnce && maybeDelivered then
      CheckOutcome.fail ErrorCode.request_maybe_delivered
    else if triedAllOptions && (errCode == ErrorCode.process_behind) then
      CheckOutcome.fail ErrorCode.process_behind
    else CheckOutcome.retry
  ⟨outcome, receivedResponse, futureVersion, penalty⟩

/-- The alternatives set as seen at the entry of loadBalance: its size, the
local prefix length and the alwaysFresh flag.  none models a null Reference. -/
structure AlternativesInfo where
  size : Nat
  countBest : Nat
  alwaysFresh : Bool
deriving DecidableEq

/-- What the first statements of loadBalance decide: a null alternatives
reference returns Never() (the call never completes); then
ASSERT(alternatives-size) fails on an empty set; otherwise the actor proceeds
to selection.  raisesAllAlternativesFailed is listed so that the outcome type
can express the all_alternatives_failed throw of the later all-failed path. -/
inductive LoadBalanceEntry
  | neverCompletes
  | assertionFailure
  | raisesAllAlternativesFailed
  | proceeds
deriving DecidableEq

def loadBalanceEntry (alternatives : Option AlternativesInfo) : LoadBalanceEntry :=
  match alternatives with
  | none => LoadBalanceEntry.neverCompletes
  | some a =>
    if a.size = 0 then LoadBalanceEntry.assertionFailure
    else LoadBalanceEntry.proceeds

/-! ### Concrete instances used by individual results -/

def c2knobs : ServerKnobs :=
  { VERSIONS_PER_SECOND := 1000000, MAX_READ_TRANSACTION_LIFE_VERSIONS := 5000000,
    MAX_VERSION_RATE_MODIFIER := 1/10, MAX_VERSION_RATE_OFFSET := 1000000,
    ENABLE_VERSION_VECTOR := false, ENABLE_VERSION_VECTOR_HA_OPTIMIZATION := false }

def c2master : MasterData :=
  { version := invalidVersion, lastVersionTime := 0, lastEpochEnd := 50,
    recoveryTransactionVersion := 100, referenceVersion := none,
    liveCommittedVersion := invalidVersion, minKnownCommittedVersion := 0,
    databaseLocked := false, proxyMetadataVersion := none, locality := -1,
    ssVersionVector := [], getCommitVersionRequests := 0,
    reportLiveCommittedVersionRequests := 0, balancerCommitProxies := [],
    balancerResolvers := [] }

/-- Two commit proxies (UIDs 1 and 2) registered for the generation. -/
def c2actor : MasterDataActor := MasterDataActor.registerLastCommitProxyVersionReplies [1, 2]

/-- Proxy 1 asks for request 1, then proxy 2 for its request 1, then proxy 1
for request 2; clocks are constant so each step is the minimal one. -/
def c2calls : List CallInput :=
  [⟨⟨1, 1, 0⟩, false, 1, 1⟩, ⟨⟨2, 1, 0⟩, false, 1, 1⟩, ⟨⟨1, 2, 1⟩, false, 1, 1⟩]

def c3knobs : ServerKnobs :=
  { VERSIONS_PER_SECOND := 1000000, MAX_READ_TRANSACTION_LIFE_VERSIONS := 5000000,
    MAX_VERSION_RATE_MODIFIER := 1/10, MAX_VERSION_RATE_OFFSET := 1000000,
    ENABLE_VERSION_VECTOR := false, ENABLE_VERSION_VECTOR_HA_OPTIMIZATION := false }

def c3reply : GetCommitVersionReply := { version := 10, prevVersion := 5, requestNum := 2 }

/-- Proxy 7 has already been served request 2 with reply c3reply. -/
def c3actor : MasterDataActor := ⟨[(7, { replies := [(2, c3reply)], latestRequestNum := 2 })]⟩

def c3master : MasterData :=
  { version := 10, lastVersionTime := 0, lastEpochEnd := 5,
    recoveryTransactionVersion := 6, referenceVersion := none,
    liveCommittedVersion := invalidVersion, minKnownCommittedVersion := 0,
    databaseLocked := false, proxyMetadataVersion := none, locality := -1,
    ssVersionVector := [], getCommitVersionRequests := 0,
    reportLiveCommittedVersionRequests := 0, balancerCommitProxies := [],
    balancerResolvers := [] }

def c3req : GetCommitVersionRequest := ⟨7, 2, 0⟩

def c5knobs : ServerKnobs :=
  { VERSIONS_PER_SECOND := 10, MAX_READ_TRANSACTION_LIFE_VERSIONS := 1000,
    MAX_VERSION_RATE_MODIFIER := 1/10, MAX_VERSION_RATE_OFFSET := 5,
    ENABLE_VERSION_VECTOR := false, ENABLE_VERSION_VECTOR_HA_OPTIMIZATION := false }

def c5actor : MasterDataActor := MasterDataActor.registerLastCommitProxyVersionReplies [3]

def c5master : MasterData :=
  { version := 100, lastVersionTime := 1, lastEpochEnd := 0,
    recoveryTransactionVersion := 100, referenceVersion := some 7,
    liveCommittedVersion := invalidVersion, minKnownCommittedVersion := 0,
    databaseLocked := false, proxyMetadataVersion := none, locality := -1,
    ssVersionVector := [], getCommitVersionRequests := 0,
    reportLiveCommittedVersionRequests := 0, balancerCommitProxies := [],
    balancerResolvers := [] }

def c5req : GetCommitVersionRequest := ⟨3, 1, 0⟩

def c7knobs : ServerKnobs :=
  { VERSIONS_PER_SECOND := 1000000, MAX_READ_TRANSACTION_LIFE_VERSIONS := 5000000,
    MAX_VERSION_RATE_MODIFIER := 1/10, MAX_VERSION_RATE_OFFSET := 1000000,
    ENABLE_VERSION_VECTOR := false, ENABLE_VERSION_VECTOR_HA_OPTIMIZATION := false }

def c7master : MasterData :=
  { version := 10, lastVersionTime := 0, lastEpochEnd := 0,
    recoveryTransactionVersion := 0, referenceVersion := none,
    liveCommittedVersion := 5, minKnownCommittedVersion := 0,
    databaseLocked := false, proxyMetadataVersion := none, locality := -1,
    ssVersionVector := [], getCommitVersionRequests := 0,
    reportLiveCommittedVersionRequests := 0, balancerCommitProxies := [],
    balancerResolvers := [] }

/-- A report whose version 3 is below liveCommittedVersion 5 but whose
minKnownCommittedVersion 10 is above the current one. -/
def c7req : ReportRawCommittedVersionRequest :=
  { version := 3, prevVersion := none, minKnownCommittedVersion := 10,
    locked := false, metadataVersion := none, writtenTags := none }

def c4reqA : GetReadVersionRequest :=
  { priority := TransactionPriority.DEFAULT, tags := [(0, 1)], proxyTagThrottledDuration := 0 }

def c4reqB : GetReadVersionRequest :=
  { priority := TransactionPriority.DEFAULT, tags := [(1, 1)], proxyTagThrottledDuration := 0 }

/-- Two tags with ample rate (1000 each) and one queued request per tag: tag 0
holds global sequence number 1, tag 1 holds global sequence number 2. -/
def c4throttler : GrvProxyTransactionTagThrottler :=
  (((⟨[], 0⟩ : GrvProxyTransactionTagThrottler).updateRates
      [(0, 1000), (1, 1000)]).addRequest 0 c4reqA).addRequest 0 c4reqB

def c8throttler : GrvProxyTransactionTagThrottler :=
  { queues :=
      [(1, { rateInfo := some ⟨5, 0⟩, requests := [] }),
       (2, { rateInfo := none,
             requests := [⟨{ priority := TransactionPriority.DEFAULT, tags := [(2, 1)],
                             proxyTagThrottledDuration := 0 }, 0, 1⟩] }),
       (3, { rateInfo := some ⟨7, 0⟩, requests := [] })],
    lastSequenceNumber := 1 }

def c8rates : List (Nat × ℚ) := [(2, 4), (4, 9)]

def c10actor : MasterDataActor := ⟨[(9, { replies := [(1, ⟨3, 2, 1⟩)], latestRequestNum := 1 })]⟩

def c10master : MasterData :=
  { version := 3, lastVersionTime := 0, lastEpochEnd := 2,
    recoveryTransactionVersion := 3, referenceVersion := none,
    liveCommittedVersion := invalidVersion, minKnownCommittedVersion := 0,
    databaseLocked := false, proxyMetadataVersion := none, locality := -1,
    ssVersionVector := [], getCommitVersionRequests := 0,
    reportLiveCommittedVersionRequests := 0, balancerCommitProxies := [],
    balancerResolvers := [] }

/-- A recovery-data update that lists no commit proxies. -/
def c10req : UpdateRecoveryDataRequest :=
  { recoveryTransactionVersion := 20, lastEpochEnd := 15, commitProxies := [],
    resolvers := [4], versionEpoch := none, primaryLocality := 1 }

/-! ### Supporting lemmas -/

theorem updateLiveCommittedVersion_live (k : ServerKnobs) (m : MasterData)
    (req : ReportRawCommittedVersionRequest) :
    (updateLiveCommittedVersion k m req).liveCommittedVersion =
      max m.liveCommittedVersion req.version := by
  unfold updateLiveCommittedVersion
  dsimp only
  split
  · rename_i h
    rw [max_eq_right (le_of_lt h)]
  · rename_i h
    rw [max_eq_left (not_lt.mp h)]

theorem updateLiveCommittedVersion_le (k : ServerKnobs) (m : MasterData)
    (req : ReportRawCommittedVersionRequest) :
    m.liveCommittedVersion ≤ (updateLiveCommittedVersion k m req).liveCommittedVersion := by
  rw [updateLiveCommittedVersion_live]
  exact le_max_left _ _

theorem foldl_updateLiveCommittedVersion_le (k : ServerKnobs)
    (reqs : List ReportRawCommittedVersionRequest) :
    ∀ m : MasterData,
      m.liveCommittedVersion ≤
        (List.foldl (updateLiveCommittedVersion k) m reqs).liveCommittedVersion := by
  induction reqs with
  | nil => intro m; exact le_refl _
  | cons r rs ih =>
    intro m
    exact le_trans (updateLiveCommittedVersion_le k m r) (ih _)

/-! ### Claim results, part 1 -/

/-- Claim C1: updateLiveCommittedVersion sets liveCommittedVersion to the max
of the old value and req.version (updating only on a strictly greater
req.version), so liveCommittedVersion is monotone non-decreasing through any
sequence of calls. -/
theorem updateLiveCommittedVersion_monotone (k : ServerKnobs) (m : MasterData)
    (req : ReportRawCommittedVersionRequest) (reqs : List ReportRawCommittedVersionRequest) :
    (updateLiveCommittedVersion k m req).liveCommittedVersion =
      max m.liveCommittedVersion req.version ∧
    m.liveCommittedVersion ≤
      (List.foldl (updateLiveCommittedVersion k) m reqs).liveCommittedVersion :=
  ⟨updateLiveCommittedVersion_live k m req, foldl_updateLiveCommittedVersion_le k reqs m⟩

/-- Claim C7, counterexample: a report with version 3 below the live committed
version 5 still raises minKnownCommittedVersion (and the request counter), so
updateLiveCommittedVersion is not a complete no-op for low versions. -/
theorem updateLiveCommittedVersion_noop_counterexample :
    c7req.version ≤ c7master.liveCommittedVersion ∧
    (updateLiveCommittedVersion c7knobs c7master c7req).minKnownCommittedVersion ≠
      c7master.minKnownCommittedVersion ∧
    (updateLiveCommittedVersion c7knobs c7master c7req).reportLiveCommittedVersionRequests ≠
      c7master.reportLiveCommittedVersionRequests := by
  decide

/-- Claim C7 (amended): for a report whose version is at most the live
committed version, the call leaves liveCommittedVersion, databaseLocked,
proxyMetadataVersion, the version vector and everything else unchanged except
that minKnownCommittedVersion becomes the max with the reported one and the
report counter increments. -/
theorem updateLiveCommittedVersion_lowVersion_frame (k : ServerKnobs) (m : MasterData)
    (req : ReportRawCommittedVersionRequest) (h : req.version ≤ m.liveCommittedVersion) :
    updateLiveCommittedVersion k m req =
      { m with
        minKnownCommittedVersion := max m.minKnownCommittedVersion req.minKnownCommittedVersion,
        reportLiveCommittedVersionRequests := m.reportLiveCommittedVersionRequests + 1 } := by
  unfold updateLiveCommittedVersion
  dsimp only
  rw [if_neg (not_lt.mpr h)]

theorem updateLiveCommittedVersion_lowVersion_frame_witness :
    c7req.version ≤ c7master.liveCommittedVersion ∧
    updateLiveCommittedVersion c7knobs c7master c7req =
      { c7master with
        minKnownCommittedVersion :=
          max c7master.minKnownCommittedVersion c7req.minKnownCommittedVersion,
        reportLiveCommittedVersionRequests :=
          c7master.reportLiveCommittedVersionRequests + 1 } :=
  ⟨by decide, updateLiveCommittedVersion_lowVersion_frame c7knobs c7master c7req (by decide)⟩

/-- Claim C9, counterexample: calling loadBalance with a non-null empty
alternatives set that is marked fresh fails ASSERT(alternatives-size) at
entry: it neither blocks forever nor raises all_alternatives_failed. -/
theorem loadBalance_emptyFresh_counterexample :
    loadBalanceEntry (some ⟨0, 0, true⟩) = LoadBalanceEntry.assertionFailure ∧
    LoadBalanceEntry.assertionFailure ≠ LoadBalanceEntry.neverCompletes ∧
    LoadBalanceEntry.assertionFailure ≠ LoadBalanceEntry.raisesAllAlternativesFailed := by
  decide

/-- Claim C9 (amended): loadBalance called with a null alternatives reference
returns Never and thus never completes; called with a non-null empty
alternatives set it fails the entry assertion regardless of the fresh flag. -/
theorem loadBalance_nullAndEmpty_entry (countBest : Nat) (fresh : Bool) :
    loadBalanceEntry none = LoadBalanceEntry.neverCompletes ∧
    loadBalanceEntry (some ⟨0, countBest, fresh⟩) = LoadBalanceEntry.assertionFailure :=
  ⟨rfl, rfl⟩

/-- Claim C10: an UpdateRecoveryDataRequest with no commit proxies leaves the
registered proxy set with its reply caches and latestRequestNum counters
untouched, while recoveryTransactionVersion and lastEpochEnd are still
overwritten. -/
theorem updateRecoveryData_emptyProxies_frame (st : MasterDataActor) (m : MasterData)
    (req : UpdateRecoveryDataRequest) (buggify : Bool) (seed : Int)
    (h : req.commitProxies = []) :
    (MasterDataActor.updateRecoveryData st m req buggify seed).1 = st ∧
    (MasterDataActor.updateRecoveryData st m req buggify seed).2.recoveryTransactionVersion =
      req.recoveryTransactionVersion ∧
    (MasterDataActor.updateRecoveryData st m req buggify seed).2.lastEpochEnd =
      req.lastEpochEnd := by
  refine ⟨?_, ?_, ?_⟩ <;>
    cases hv : req.versionEpoch <;>
      cases buggify <;>
        simp [MasterDataActor.updateRecoveryData, h, hv]

theorem updateRecoveryData_emptyProxies_frame_witness :
    c10req.commitProxies = [] ∧
    ((MasterDataActor.updateRecoveryData c10actor c10master c10req false 0).1 = c10actor ∧
     (MasterDataActor.updateRecoveryData c10actor c10master c10req
        false 0).2.recoveryTransactionVersion = c10req.recoveryTransactionVersion ∧
     (MasterDataActor.updateRecoveryData c10actor c10master c10req false 0).2.lastEpochEnd =
       c10req.lastEpochEnd) :=
  ⟨by decide, updateRecoveryData_emptyProxies_frame c10actor c10master c10req false 0 (by decide)⟩

/-- Claim C6: when the effective error code of a reply is broken_promise or
request_maybe_delivered, checkAndProcessResultImpl surfaces
request_maybe_delivered under atMostOnce and classifies the attempt as
retriable otherwise. -/
theorem checkAndProcessResult_maybeDelivered (result : ReplyResult) (triedAllOptions : Bool)
    (h : effectiveErrorCode result = ErrorCode.broken_promise ∨
         effectiveErrorCode result = ErrorCode.request_maybe_delivered) :
    (checkAndProcessResultImpl result true triedAllOptions).outcome =
      CheckOutcome.fail ErrorCode.request_maybe_delivered ∧
    (checkAndProcessResultImpl result false triedAllOptions).outcome = CheckOutcome.retry := by
  rcases result with p | e
  · rcases p with r | _
    · rcases r with ⟨pen, err⟩
      rcases err with _ | ec
      · simp [effectiveErrorCode, lbrOf] at h
      · rcases h with h | h <;>
          · simp only [effectiveErrorCode, lbrOf, Option.getD_some] at h
            subst h
            simp [checkAndProcessResultImpl, effectiveErrorCode, lbrOf, ReplyResult.present]
    · simp [effectiveErrorCode, lbrOf] at h
  · simp only [effectiveErrorCode, lbrOf] at h
    rcases h with h | h <;>
      · subst h
        simp [checkAndProcessResultImpl, effectiveErrorCode, lbrOf, ReplyResult.present]

theorem checkAndProcessResult_maybeDelivered_witness :
    (effectiveErrorCode (ReplyResult.failure ErrorCode.broken_promise) =
       ErrorCode.broken_promise ∨
     effectiveErrorCode (ReplyResult.failure ErrorCode.broken_promise) =
       ErrorCode.request_maybe_delivered) ∧
    ((checkAndProcessResultImpl (ReplyResult.failure ErrorCode.broken_promise)
        true false).outcome = CheckOutcome.fail ErrorCode.request_maybe_delivered ∧
     (checkAndProcessResultImpl (ReplyResult.failure ErrorCode.broken_promise)
        false false).outcome = CheckOutcome.retry) :=
  ⟨Or.inl (by decide),
   checkAndProcessResult_maybeDelivered (ReplyResult.failure ErrorCode.broken_promise) false
     (Or.inl (by decide))⟩

/-- Claim C3: a getVersion call for a request number that has already been
served and whose reply is still cached returns exactly the cached reply and
changes nothing but the request counter: version, lastVersionTime, the reply
caches and latestRequestNum are untouched. -/
theorem getVersion_duplicate_cached (k : ServerKnobs) (st : MasterDataActor) (m : MasterData)
    (req : GetCommitVersionRequest) (buggify : Bool) (tNow timerNow : ℚ)
    (lvr : CommitProxyVersionReplies) (rep : GetCommitVersionReply)
    (hreg : alookup st.lastCommitProxyVersionReplies req.requestingProxy = some lvr)
    (hpos : 1 ≤ req.requestNum)
    (hserved : (req.requestNum : Int) ≤ lvr.latestRequestNum)
    (hcache : alookup lvr.replies req.requestNum = some rep) :
    MasterDataActor.getVersion k st m req buggify tNow timerNow =
      (GetVersionOutcome.cached rep, st,
        { m with getCommitVersionRequests := m.getCommitVersionRequests + 1 }) := by
  have hnb : ¬(lvr.latestRequestNum < uint64SubOne req.requestNum) := by
    unfold uint64SubOne
    rw [if_neg (by omega)]
    omega
  unfold MasterDataActor.getVersion
  rw [hreg]
  dsimp only
  rw [if_neg hnb, hcache]

theorem getVersion_duplicate_cached_witness :
    (alookup c3actor.lastCommitProxyVersionReplies c3req.requestingProxy =
       some { replies := [(2, c3reply)], latestRequestNum := 2 } ∧
     1 ≤ c3req.requestNum ∧
     (c3req.requestNum : Int) ≤ (2 : Int) ∧
     alookup [(2, c3reply)] c3req.requestNum = some c3reply) ∧
    MasterDataActor.getVersion c3knobs c3actor c3master c3req false 2 2 =
      (GetVersionOutcome.cached c3reply, c3actor,
        { c3master with getCommitVersionRequests := c3master.getCommitVersionRequests + 1 }) :=
  ⟨⟨by decide, by decide, by decide, by decide⟩,
   getVersion_duplicate_cached c3knobs c3actor c3master c3req false 2 2
     { replies := [(2, c3reply)], latestRequestNum := 2 } c3reply
     (by decide) (by decide) (by decide) (by decide)⟩

/-- The spec formula toAdd = clamp(1, MAX_READ_TRANSACTION_LIFE_VERSIONS,
VERSIONS_PER_SECOND times (t - lastVersionTime)). -/
def specToAdd (k : ServerKnobs) (t lastVersionTime : ℚ) : Int :=
  clamp (truncQ ((k.VERSIONS_PER_SECOND : ℚ) * (t - lastVersionTime)))
    1 k.MAX_READ_TRANSACTION_LIFE_VERSIONS

/-- The spec formula maxOffset = min(toAdd times MAX_VERSION_RATE_MODIFIER,
MAX_VERSION_RATE_OFFSET). -/
def specMaxOffset (k : ServerKnobs) (toAdd : Int) : Int :=
  min (truncQ ((toAdd : ℚ) * k.MAX_VERSION_RATE_MODIFIER)) k.MAX_VERSION_RATE_OFFSET

/-- The spec formula expected = now times VERSIONS_PER_SECOND minus
referenceVersion. -/
def specExpected (k : ServerKnobs) (now : ℚ) (reference : Version) : Version :=
  truncQ (now * (k.VERSIONS_PER_SECOND : ℚ)) - reference

/-- Claim C5: with a referenceVersion set and the generation having already
emitted a version, the freshly computed version is expected clamped to the
interval from current + toAdd - maxOffset to current + toAdd + maxOffset,
with toAdd and maxOffset as in the spec formulas above. -/
theorem getVersion_referenceVersion_formula (k : ServerKnobs) (st : MasterDataActor)
    (m : MasterData) (req : GetCommitVersionRequest) (tNow timerNow : ℚ)
    (lvr : CommitProxyVersionReplies) (r : Version)
    (hreg : alookup st.lastCommitProxyVersionReplies req.requestingProxy = some lvr)
    (hwait : uint64SubOne req.requestNum ≤ lvr.latestRequestNum)
    (hcache : alookup lvr.replies req.requestNum = none)
    (hnew : lvr.latestRequestNum < (req.requestNum : Int))
    (hv : m.version ≠ invalidVersion)
    (href : m.referenceVersion = some r) :
    (MasterDataActor.getVersion k st m req false tNow timerNow).1 =
      GetVersionOutcome.fresh
        { version :=
            clamp (specExpected k timerNow r)
              (m.version + specToAdd k tNow m.lastVersionTime -
                specMaxOffset k (specToAdd k tNow m.lastVersionTime))
              (m.version + specToAdd k tNow m.lastVersionTime +
                specMaxOffset k (specToAdd k tNow m.lastVersionTime)),
          prevVersion := m.version,
          requestNum := req.requestNum } := by
  unfold MasterDataActor.getVersion
  rw [hreg]
  dsimp only
  rw [if_neg (not_lt.mpr hwait), hcache]
  dsimp only
  rw [if_neg (not_le.mpr hnew)]
  dsimp only
  unfold freshAdvance
  rw [if_neg hv]
  dsimp only
  rw [href]
  dsimp only
  unfold figureVersion specExpected specToAdd specMaxOffset clamp
  dsimp only
  congr 2
  simp [min_comm, max_comm]

theorem getVersion_referenceVersion_formula_witness :
    (alookup c5actor.lastCommitProxyVersionReplies c5req.requestingProxy =
       some { replies := [], latestRequestNum := 0 } ∧
     uint64SubOne c5req.requestNum ≤ (0 : Int) ∧
     alookup ([] : List (Nat × GetCommitVersionReply)) c5req.requestNum = none ∧
     (0 : Int) < (c5req.requestNum : Int) ∧
     c5master.version ≠ invalidVersion ∧
     c5master.referenceVersion = some 7) ∧
    (MasterDataActor.getVersion c5knobs c5actor c5master c5req false 2 2).1 =
      GetVersionOutcome.fresh
        { version :=
            clamp (specExpected c5knobs 2 7)
              (c5master.version + specToAdd c5knobs 2 c5master.lastVersionTime -
                specMaxOffset c5knobs (specToAdd c5knobs 2 c5master.lastVersionTime))
              (c5master.version + specToAdd c5knobs 2 c5master.lastVersionTime +
                specMaxOffset c5knobs (specToAdd c5knobs 2 c5master.lastVersionTime)),
          prevVersion := c5master.version,
          requestNum := c5req.requestNum } :=
  ⟨⟨by decide, by decide, by decide, by decide, by decide, by decide⟩,
   getVersion_referenceVersion_formula c5knobs c5actor c5master c5req 2 2
     { replies := [], latestRequestNum := 0 } 7
     (by decide) (by decide) (by decide) (by decide) (by decide) (by decide)⟩

theorem chainedFrom_append (p : Version) (es : List (Nat × GetCommitVersionReply))
    (x : Nat × GetCommitVersionReply) :
    chainedFrom p (es ++ [x]) = true ↔
      (chainedFrom p es = true ∧ x.2.prevVersion = lastVer p es) := by
  induction es generalizing p with
  | nil =>
    obtain ⟨u, r⟩ := x
    by_cases h : r.prevVersion = p <;> simp [chainedFrom, lastVer, h]
  | cons hd tl ih =>
    obtain ⟨u, r⟩ := hd
    simp only [List.cons_append, chainedFrom, lastVer]
    split
    · exact ih r.version
    · simp

theorem lastVer_append (p : Version) (es : List (Nat × GetCommitVersionReply))
    (x : Nat × GetCommitVersionReply) :
    lastVer p (es ++ [x]) = x.2.version := by
  induction es generalizing p with
  | nil => rfl
  | cons hd tl ih =>
    obtain ⟨u, r⟩ := hd
    simp only [List.cons_append, lastVer]
    exact ih r.version

/-- When toAdd is at least one and the rate modifier lies in the interval from
zero up to (but excluding) one, figureVersion strictly advances the version:
the lower clamp bound current + toAdd - maxOffset already exceeds current. -/
theorem lt_figureVersion (k : ServerKnobs) (current : Version) (now : ℚ) (reference : Version)
    (toAdd : Int) (modifier : ℚ) (offs : Int) (hmod0 : 0 ≤ modifier) (hmod1 : modifier < 1)
    (htoAdd : 1 ≤ toAdd) :
    current < figureVersion k current now reference toAdd modifier offs := by
  have hq : (0 : ℚ) < (toAdd : ℚ) := by exact_mod_cast lt_of_lt_of_le zero_lt_one htoAdd
  have h0 : (0 : ℚ) ≤ (toAdd : ℚ) * modifier := mul_nonneg (le_of_lt hq) hmod0
  have h1 : truncQ ((toAdd : ℚ) * modifier) = ⌊(toAdd : ℚ) * modifier⌋ := if_pos h0
  have h2 : ⌊(toAdd : ℚ) * modifier⌋ < toAdd := by
    rw [Int.floor_lt]
    calc (toAdd : ℚ) * modifier < (toAdd : ℚ) * 1 := mul_lt_mul_of_pos_left hmod1 hq
    _ = (toAdd : ℚ) := mul_one _
  have h3 : min (truncQ ((toAdd : ℚ) * modifier)) offs ≤ truncQ ((toAdd : ℚ) * modifier) :=
    min_le_left _ _
  have hEq : figureVersion k current now reference toAdd modifier offs =
      clamp (truncQ (now * (k.VERSIONS_PER_SECOND : ℚ)) - reference)
        (current + toAdd - min (truncQ ((toAdd : ℚ) * modifier)) offs)
        (current + toAdd + min (truncQ ((toAdd : ℚ) * modifier)) offs) := rfl
  rw [hEq]
  unfold clamp
  obtain ⟨M, hMdef⟩ : ∃ M, min (truncQ ((toAdd : ℚ) * modifier)) offs = M := ⟨_, rfl⟩
  rw [hMdef] at h3 ⊢
  rw [h1] at h3
  have hlt : current < current + toAdd - M := by linarith
  exact lt_of_lt_of_le hlt (le_max_right _ _)

theorem freshAdvance_frame (k : ServerKnobs) (m : MasterData) (b : Bool) (tN tT : ℚ) :
    (freshAdvance k m b tN tT).1.lastEpochEnd = m.lastEpochEnd ∧
    (freshAdvance k m b tN tT).1.recoveryTransactionVersion = m.recoveryTransactionVersion := by
  unfold freshAdvance
  split
  · exact ⟨rfl, rfl⟩
  · exact ⟨rfl, rfl⟩

theorem freshAdvance_invalid (k : ServerKnobs) (m : MasterData) (b : Bool) (tN tT : ℚ)
    (h : m.version = invalidVersion) :
    freshAdvance k m b tN tT =
      ({ m with lastVersionTime := tN, version := m.recoveryTransactionVersion },
       m.lastEpochEnd) := by
  unfold freshAdvance
  rw [if_pos h]

/-- On the already-initialized path, freshAdvance strictly increases the
version and reports the old version as prevVersion. -/
theorem freshAdvance_advances (k : ServerKnobs) (m : MasterData) (b : Bool) (tN tT : ℚ)
    (hmod0 : 0 ≤ k.MAX_VERSION_RATE_MODIFIER) (hmod1 : k.MAX_VERSION_RATE_MODIFIER < 1)
    (h : m.version ≠ invalidVersion) :
    m.version < (freshAdvance k m b tN tT).1.version ∧
    (freshAdvance k m b tN tT).2 = m.version := by
  unfold freshAdvance
  rw [if_neg h]
  dsimp only
  refine ⟨?_, rfl⟩
  split
  · exact lt_figureVersion k m.version tT _ _ _ _ hmod0 hmod1 (le_max_left _ _)
  · obtain ⟨T, hT⟩ : ∃ T, max 1 (min k.MAX_READ_TRANSACTION_LIFE_VERSIONS
        (truncQ ((k.VERSIONS_PER_SECOND : ℚ) *
          ((if b then m.lastVersionTime else tN) - m.lastVersionTime)))) = T := ⟨_, rfl⟩
    have h1 : 1 ≤ T := hT ▸ le_max_left _ _
    rw [hT]
    linarith

/-- Every getVersion call either computes a fresh reply (from freshAdvance)
or leaves the actor state untouched and only bumps the request counter. -/
theorem getVersion_cases (k : ServerKnobs) (st : MasterDataActor) (m : MasterData)
    (req : GetCommitVersionRequest) (b : Bool) (tN tT : ℚ) :
    (∃ st2, MasterDataActor.getVersion k st m req b tN tT =
        (GetVersionOutcome.fresh
          ⟨(freshAdvance k { m with getCommitVersionRequests := m.getCommitVersionRequests + 1 }
              b tN tT).1.version,
           (freshAdvance k { m with getCommitVersionRequests := m.getCommitVersionRequests + 1 }
              b tN tT).2,
           req.requestNum⟩, st2,
         (freshAdvance k { m with getCommitVersionRequests := m.getCommitVersionRequests + 1 }
            b tN tT).1)) ∨
    (∃ o, MasterDataActor.getVersion k st m req b tN tT =
        (o, st, { m with getCommitVersionRequests := m.getCommitVersionRequests + 1 }) ∧
        ∀ rep, o ≠ GetVersionOutcome.fresh rep) := by
  unfold MasterDataActor.getVersion
  cases hreg : alookup st.lastCommitProxyVersionReplies req.requestingProxy with
  | none =>
    right
    exact ⟨GetVersionOutcome.invalidProxy, rfl, fun rep h => by cases h⟩
  | some lvr =>
    dsimp only
    split
    · right
      exact ⟨GetVersionOutcome.blocked, rfl, fun rep h => by cases h⟩
    · cases hc : alookup lvr.replies req.requestNum with
      | some lastReply =>
        right
        exact ⟨GetVersionOutcome.cached lastReply, rfl, fun rep h => by cases h⟩
      | none =>
        dsimp only
        split
        · right
          exact ⟨GetVersionOutcome.stale, rfl, fun rep h => by cases h⟩
        · left
          exact ⟨_, rfl⟩

/-- One trace step preserves the chain invariant. -/
theorem runStep_inv (k : ServerKnobs) (le rec : Version)
    (hmod0 : 0 ≤ k.MAX_VERSION_RATE_MODIFIER) (hmod1 : k.MAX_VERSION_RATE_MODIFIER < 1)
    (hrec : le < rec) (hrec0 : 0 ≤ rec)
    (st : MasterDataActor) (m : MasterData) (es : List (Nat × GetCommitVersionReply))
    (c : CallInput) (h : ChainInv le rec m es) :
    ChainInv le rec (runStep k (st, m, es) c).2.1 (runStep k (st, m, es) c).2.2 := by
  obtain ⟨hle, hrc, hch, hstrict, hlast⟩ := h
  unfold runStep
  dsimp only
  rcases getVersion_cases k st m c.req c.buggify c.tNow c.timerNow with ⟨st2, heq⟩ | ⟨o, heq, hno⟩
  · rw [heq]
    dsimp only
    by_cases hv : m.version = invalidVersion
    · have hesnil : es = [] := by
        rcases hlast with ⟨hnil, _⟩ | ⟨_, _, hge⟩
        · exact hnil
        · exfalso
          have hv1 : m.version = -1 := hv
          rw [hv1] at hge
          linarith
      subst hesnil
      rw [freshAdvance_invalid k
        { m with getCommitVersionRequests := m.getCommitVersionRequests + 1 }
        c.buggify c.tNow c.timerNow hv]
      dsimp only
      refine ⟨hle, hrc, ?_, ?_, Or.inr ⟨by simp, ?_, ?_⟩⟩
      · simp [chainedFrom, hle]
      · intro x hx
        simp only [List.nil_append, List.mem_singleton] at hx
        subst hx
        dsimp only
        linarith
      · simp [lastVer]
      · simp only [List.nil_append, lastVer]
        linarith
    · obtain ⟨hlt, hprev⟩ := freshAdvance_advances k
        { m with getCommitVersionRequests := m.getCommitVersionRequests + 1 }
        c.buggify c.tNow c.timerNow hmod0 hmod1 hv
      rcases hlast with ⟨_, hbad⟩ | ⟨hne, hlv, hge⟩
      · exact absurd hbad hv
      refine ⟨?_, ?_, ?_, ?_, Or.inr ⟨by simp, ?_, ?_⟩⟩
      · exact (freshAdvance_frame k _ c.buggify c.tNow c.timerNow).1.trans hle
      · exact (freshAdvance_frame k _ c.buggify c.tNow c.timerNow).2.trans hrc
      · rw [chainedFrom_append]
        exact ⟨hch, by rw [hprev, ← hlv]⟩
      · intro x hx
        rcases List.mem_append.mp hx with hx | hx
        · exact hstrict x hx
        · simp only [List.mem_singleton] at hx
          subst hx
          dsimp only
          rw [hprev]
          exact hlt
      · rw [lastVer_append]
      · have h1 : rec ≤ m.version := hge
        have hlt2 : m.version <
            (freshAdvance k
              { m with getCommitVersionRequests := m.getCommitVersionRequests + 1 }
              c.buggify c.tNow c.timerNow).1.version := hlt
        linarith
  · rw [heq]
    dsimp only
    rcases o with _ | _ | rep | _ | rep
    · exact ⟨hle, hrc, hch, hstrict, hlast⟩
    · exact ⟨hle, hrc, hch, hstrict, hlast⟩
    · exact ⟨hle, hrc, hch, hstrict, hlast⟩
    · exact ⟨hle, hrc, hch, hstrict, hlast⟩
    · exact absurd rfl (hno rep)

/-- A whole trace preserves the chain invariant. -/
theorem runCalls_inv (k : ServerKnobs) (le rec : Version)
    (hmod0 : 0 ≤ k.MAX_VERSION_RATE_MODIFIER) (hmod1 : k.MAX_VERSION_RATE_MODIFIER < 1)
    (hrec : le < rec) (hrec0 : 0 ≤ rec) (calls : List CallInput) :
    ∀ acc : MasterDataActor × MasterData × List (Nat × GetCommitVersionReply),
      ChainInv le rec acc.2.1 acc.2.2 →
      ChainInv le rec (List.foldl (runStep k) acc calls).2.1
        (List.foldl (runStep k) acc calls).2.2 := by
  induction calls with
  | nil => intro acc h; exact h
  | cons c cs ih =>
    intro acc h
    rw [List.foldl_cons]
    obtain ⟨st, m, es⟩ := acc
    exact ih _ (runStep_inv k le rec hmod0 hmod1 hrec hrec0 st m es c h)

/-- Claim C2, counterexample: with the two registered proxies of c2actor, the
replies emitted to proxy 1 alone do not chain: the second reply to proxy 1
carries as prevVersion the version that was handed to proxy 2 in between, so
the per-proxy (prevVersion, version) chain of the claim is broken. -/
theorem getVersion_perProxyChain_counterexample :
    chainedFrom c2master.lastEpochEnd
      (((runCalls c2knobs c2actor c2master c2calls).2.2).filter (fun x => x.1 == 1)) =
      false := by
  with_unfolding_all decide

/-- Claim C2 (amended): within one generation the freshly emitted
(prevVersion, version) pairs chain globally across all commit proxies rather
than per proxy: each fresh reply's prevVersion equals the version of the
previous fresh reply to any proxy, the first reply of the generation has
prevVersion lastEpochEnd, and each issued version strictly exceeds its
prevVersion. -/
theorem getVersion_globalChain (k : ServerKnobs) (st : MasterDataActor) (m : MasterData)
    (calls : List CallInput)
    (hmod0 : 0 ≤ k.MAX_VERSION_RATE_MODIFIER) (hmod1 : k.MAX_VERSION_RATE_MODIFIER < 1)
    (hv : m.version = invalidVersion)
    (hrec : m.lastEpochEnd < m.recoveryTransactionVersion)
    (hrec0 : 0 ≤ m.recoveryTransactionVersion) :
    chainedFrom m.lastEpochEnd (runCalls k st m calls).2.2 = true ∧
    ((runCalls k st m calls).2.2.all
       (fun x => decide (x.2.prevVersion < x.2.version))) = true := by
  have h := runCalls_inv k m.lastEpochEnd m.recoveryTransactionVersion hmod0 hmod1 hrec hrec0
    calls (st, m, []) ⟨rfl, rfl, rfl, by simp, Or.inl ⟨rfl, hv⟩⟩
  obtain ⟨_, _, hch, hstrict, _⟩ := h
  refine ⟨hch, ?_⟩
  rw [List.all_eq_true]
  intro x hx
  exact decide_eq_true (hstrict x hx)

theorem getVersion_globalChain_witness :
    (0 ≤ c2knobs.MAX_VERSION_RATE_MODIFIER ∧ c2knobs.MAX_VERSION_RATE_MODIFIER < 1 ∧
     c2master.version = invalidVersion ∧
     c2master.lastEpochEnd < c2master.recoveryTransactionVersion ∧
     0 ≤ c2master.recoveryTransactionVersion) ∧
    (chainedFrom c2master.lastEpochEnd (runCalls c2knobs c2actor c2master c2calls).2.2 =
       true ∧
     ((runCalls c2knobs c2actor c2master c2calls).2.2.all
        (fun x => decide (x.2.prevVersion < x.2.version))) = true) :=
  ⟨⟨by with_unfolding_all decide, by with_unfolding_all decide, by decide, by decide,
    by decide⟩,
   getVersion_globalChain c2knobs c2actor c2master c2calls
     (by with_unfolding_all decide) (by with_unfolding_all decide) (by decide) (by decide)
     (by decide)⟩

/-- One outer iteration of releaseTransactions on c4throttler returns to the
identical loop state: the max-heap pops tag 1 (front sequence 2), its front is
not the globally oldest, so the tag is pushed back and nothing is released. -/
theorem releaseTransactions_c4_step (fuel : Nat) :
    GrvProxyTransactionTagThrottler.releaseTransactions (fuel + 1) 1 1 c4throttler =
      GrvProxyTransactionTagThrottler.releaseTransactions fuel 1 1 c4throttler := by
  with_unfolding_all rfl

/-- Claim C4 (code bug): on two tags with ample rate budget holding global
sequence numbers 1 and 2, releaseTransactions releases nothing and never
terminates, for every iteration bound: TagInfo's operator-lt compares
nextSeqNo with less-than, so std::priority_queue pops the tag with the
greatest front sequence number, finds it is not the globally oldest, pushes it
back, and spins. -/
theorem releaseTransactions_twoTags_nonterminating (fuel : Nat) :
    GrvProxyTransactionTagThrottler.releaseTransactions fuel 1 1 c4throttler =
      ReleaseOutcome.outOfFuel := by
  induction fuel with
  | zero => with_unfolding_all rfl
  | succ n ih => rw [releaseTransactions_c4_step n]; exact ih

theorem alookup_eq_none_iff {α : Type} (l : List (Nat × α)) (t : Nat) :
    alookup l t = none ↔ t ∉ l.map Prod.fst := by
  induction l with
  | nil => simp [alookup]
  | cons hd tl ih =>
    obtain ⟨k, v⟩ := hd
    simp only [List.map_cons, List.mem_cons, alookup]
    by_cases h : k = t
    · simp [h]
    · have h2 : ¬t = k := fun hh => h hh.symm
      rw [if_neg h, ih]
      tauto

theorem alookup_aset_self {α : Type} (l : List (Nat × α)) (k : Nat) (v q : α)
    (h : alookup l k = some q) : alookup (aset l k v) k = some v := by
  induction l with
  | nil => simp [alookup] at h
  | cons hd tl ih =>
    obtain ⟨k0, v0⟩ := hd
    by_cases hk : k0 = k
    · simp [alookup, aset, hk]
    · simp only [alookup, if_neg hk] at h
      simp [alookup, aset, hk, ih h]

theorem alookup_aset_other {α : Type} (l : List (Nat × α)) (k t : Nat) (v : α) (h : k ≠ t) :
    alookup (aset l k v) t = alookup l t := by
  induction l with
  | nil => rfl
  | cons hd tl ih =>
    obtain ⟨k0, v0⟩ := hd
    by_cases hk : k0 = k
    · subst hk
      simp [aset, alookup, h, Ne.symm h]
    · by_cases ht : k0 = t <;> simp [aset, alookup, hk, ht, ih, Ne.symm h]

theorem aset_map_fst {α : Type} (l : List (Nat × α)) (k : Nat) (v : α) :
    (aset l k v).map Prod.fst = l.map Prod.fst := by
  induction l with
  | nil => rfl
  | cons hd tl ih =>
    obtain ⟨k0, v0⟩ := hd
    by_cases hk : k0 = k <;> simp [aset, hk, ih]

theorem alookup_append_new {α : Type} (l : List (Nat × α)) (k : Nat) (v : α)
    (h : alookup l k = none) : alookup (l ++ [(k, v)]) k = some v := by
  induction l with
  | nil => simp [alookup]
  | cons hd tl ih =>
    obtain ⟨k0, v0⟩ := hd
    by_cases hk : k0 = k
    · simp [alookup, hk] at h
    · simp only [alookup, if_neg hk] at h
      simp [alookup, hk, ih h]

theorem alookup_append_other {α : Type} (l : List (Nat × α)) (k t : Nat) (v : α)
    (h : k ≠ t) : alookup (l ++ [(k, v)]) t = alookup l t := by
  induction l with
  | nil => simp [alookup, h]
  | cons hd tl ih =>
    obtain ⟨k0, v0⟩ := hd
    by_cases ht : k0 = t <;> simp [alookup, ht, ih]

theorem alookup_filter_none {α : Type} (p : Nat × α → Bool) (l : List (Nat × α)) (t : Nat)
    (h : alookup l t = none) : alookup (l.filter p) t = none := by
  induction l with
  | nil => rfl
  | cons hd tl ih =>
    obtain ⟨k, v⟩ := hd
    by_cases hk : k = t
    · simp [alookup, hk] at h
    · simp only [alookup, if_neg hk] at h
      by_cases hp : p (k, v) <;> simp [List.filter, hp, alookup, hk, ih h]

theorem alookup_filter_some {α : Type} (p : Nat × α → Bool) (l : List (Nat × α)) (t : Nat)
    (q : α) (hnd : (l.map Prod.fst).Nodup) (h : alookup l t = some q) :
    alookup (l.filter p) t = if p (t, q) then some q else none := by
  induction l with
  | nil => simp [alookup] at h
  | cons hd tl ih =>
    obtain ⟨k, v⟩ := hd
    simp only [List.map_cons, List.nodup_cons] at hnd
    obtain ⟨hmem, hnd2⟩ := hnd
    by_cases hk : k = t
    · subst hk
      have h2 : v = q := by simpa [alookup] using h
      subst h2
      have hnone : alookup tl k = none := (alookup_eq_none_iff tl k).mpr hmem
      by_cases hp : p (k, v) <;>
        simp [List.filter, hp, alookup, alookup_filter_none p tl k hnone]
    · simp only [alookup, if_neg hk] at h
      by_cases hp : p (k, v) <;> simp [List.filter, hp, alookup, hk, ih hnd2 h]

theorem updateRatesAssign_not_mem (rates : List (Nat × ℚ)) :
    ∀ (qs : List (Nat × TagQueue)) (t : Nat), t ∉ rates.map Prod.fst →
      alookup (updateRatesAssign qs rates) t = alookup qs t := by
  induction rates with
  | nil => intro qs t _; rfl
  | cons hd tl ih =>
    obtain ⟨t0, r0⟩ := hd
    intro qs t h
    simp only [List.map_cons, List.mem_cons] at h
    push_neg at h
    obtain ⟨h1, h2⟩ := h
    unfold updateRatesAssign
    rw [ih _ t h2]
    cases hq : alookup qs t0
    · exact alookup_append_other qs t0 t _ (Ne.symm h1)
    · exact alookup_aset_other qs t0 t _ (Ne.symm h1)

theorem updateRatesAssign_mem (rates : List (Nat × ℚ))
    (hnd : (rates.map Prod.fst).Nodup) :
    ∀ (qs : List (Nat × TagQueue)) (t : Nat) (r : ℚ), alookup rates t = some r →
      alookup (updateRatesAssign qs rates) t =
        some (match alookup qs t with
              | some q => q.setRate r
              | none => TagQueue.ofRate r) := by
  induction rates with
  | nil => intro qs t r h; simp [alookup] at h
  | cons hd tl ih =>
    obtain ⟨t0, r0⟩ := hd
    simp only [List.map_cons, List.nodup_cons] at hnd
    obtain ⟨hmem, hnd2⟩ := hnd
    intro qs t r h
    unfold updateRatesAssign
    by_cases ht : t0 = t
    · subst ht
      have h2 : r0 = r := by simpa [alookup] using h
      subst h2
      rw [updateRatesAssign_not_mem tl _ t0 hmem]
      cases hq : alookup qs t0
      · rw [alookup_append_new qs t0 _ hq]
      · rw [alookup_aset_self qs t0 _ _ hq]
    · have h2 : alookup tl t = some r := by
        simpa [alookup, ht] using h
      rw [ih hnd2 _ t r h2]
      cases hq : alookup qs t0
      · rw [alookup_append_other qs t0 t _ ht]
      · rw [alookup_aset_other qs t0 t _ ht]

theorem updateRatesAssign_nodup (rates : List (Nat × ℚ)) :
    ∀ qs : List (Nat × TagQueue), (qs.map Prod.fst).Nodup →
      ((updateRatesAssign qs rates).map Prod.fst).Nodup := by
  induction rates with
  | nil => intro qs h; exact h
  | cons hd tl ih =>
    obtain ⟨t0, r0⟩ := hd
    intro qs h
    unfold updateRatesAssign
    apply ih
    cases hq : alookup qs t0
    · have hmem : t0 ∉ qs.map Prod.fst := (alookup_eq_none_iff qs t0).mp hq
      simp [List.nodup_append, h, hmem]
    · rw [aset_map_fst]
      exact h

theorem updateRatesClean_alookup (rates : List (Nat × ℚ)) (qs : List (Nat × TagQueue))
    (t : Nat) :
    alookup (updateRatesClean rates qs) t =
      (alookup qs t).map (fun q =>
        if (alookup rates t).isSome then q else { q with rateInfo := none }) := by
  induction qs with
  | nil => rfl
  | cons hd tl ih =>
    obtain ⟨k, q⟩ := hd
    by_cases hk : k = t
    · subst hk
      by_cases hc : (alookup rates k).isSome <;>
        simp [updateRatesClean, alookup, hc]
    · by_cases hc : (alookup rates k).isSome <;>
        simpa [updateRatesClean, alookup, hk, hc] using ih

theorem updateRatesClean_map_fst (rates : List (Nat × ℚ)) (qs : List (Nat × TagQueue)) :
    (updateRatesClean rates qs).map Prod.fst = qs.map Prod.fst := by
  induction qs with
  | nil => rfl
  | cons hd tl ih =>
    obtain ⟨k, q⟩ := hd
    by_cases hc : (alookup rates k).isSome <;>
      simp [updateRatesClean, hc, ih.symm]

theorem TagQueue.setRate_spec (q : TagQueue) (r : ℚ) :
    (∃ ri, (q.setRate r).rateInfo = some ri ∧ ri.rate = r) ∧
    (q.setRate r).requests = q.requests := by
  unfold TagQueue.setRate
  cases q.rateInfo <;>
    simp [GrvTransactionRateInfo.ofRate, GrvTransactionRateInfo.setRate]

theorem TagQueue.ofRate_spec (r : ℚ) :
    (∃ ri, (TagQueue.ofRate r).rateInfo = some ri ∧ ri.rate = r) ∧
    (TagQueue.ofRate r).requests = [] := by
  simp [TagQueue.ofRate, GrvTransactionRateInfo.ofRate]

/-- Full characterization of a lookup in the queue map after updateRates. -/
theorem updateRates_alookup (thr : GrvProxyTransactionTagThrottler)
    (newRates : List (Nat × ℚ)) (t : Nat)
    (hndr : (newRates.map Prod.fst).Nodup)
    (hndq : (thr.queues.map Prod.fst).Nodup) :
    alookup (thr.updateRates newRates).queues t =
      match alookup newRates t, alookup thr.queues t with
      | some r, some q => some (q.setRate r)
      | some r, none => some (TagQueue.ofRate r)
      | none, some q =>
        if q.requests.isEmpty then none else some { q with rateInfo := none }
      | none, none => none := by
  have hnd1 := updateRatesAssign_nodup newRates thr.queues hndq
  have hnd2 : ((updateRatesClean newRates (updateRatesAssign thr.queues newRates)).map
      Prod.fst).Nodup := by
    rw [updateRatesClean_map_fst]
    exact hnd1
  show alookup (updateRatesErase (updateRatesClean newRates
      (updateRatesAssign thr.queues newRates))) t = _
  rcases hA : alookup newRates t with _ | r
  · have h1 : alookup (updateRatesAssign thr.queues newRates) t = alookup thr.queues t :=
      updateRatesAssign_not_mem newRates thr.queues t ((alookup_eq_none_iff newRates t).mp hA)
    rcases hB : alookup thr.queues t with _ | q
    · rw [hB] at h1
      have h2 : alookup (updateRatesClean newRates
          (updateRatesAssign thr.queues newRates)) t = none := by
        rw [updateRatesClean_alookup, h1]
        rfl
      exact alookup_filter_none _ _ t h2
    · rw [hB] at h1
      have h2 : alookup (updateRatesClean newRates
          (updateRatesAssign thr.queues newRates)) t = some { q with rateInfo := none } := by
        rw [updateRatesClean_alookup, h1, hA]
        rfl
      unfold updateRatesErase
      rw [alookup_filter_some _ _ t _ hnd2 h2]
      by_cases he : q.requests.isEmpty <;> simp [he]
  · have h1 := updateRatesAssign_mem newRates hndr thr.queues t r hA
    rcases hB : alookup thr.queues t with _ | q
    · rw [hB] at h1
      have h2 : alookup (updateRatesClean newRates
          (updateRatesAssign thr.queues newRates)) t = some (TagQueue.ofRate r) := by
        rw [updateRatesClean_alookup, h1, hA]
        rfl
      unfold updateRatesErase
      rw [alookup_filter_some _ _ t _ hnd2 h2]
      obtain ⟨⟨ri, hri, _⟩, _⟩ := TagQueue.ofRate_spec r
      simp [hri]
    · rw [hB] at h1
      have h2 : alookup (updateRatesClean newRates
          (updateRatesAssign thr.queues newRates)) t = some (q.setRate r) := by
        rw [updateRatesClean_alookup, h1, hA]
        rfl
      unfold updateRatesErase
      rw [alookup_filter_some _ _ t _ hnd2 h2]
      obtain ⟨⟨ri, hri, _⟩, _⟩ := TagQueue.setRate_spec q r
      simp [hri]

/-- Claim C8: after updateRates(newRates), a tag queue exists exactly when the
tag appears in newRates or its request deque is non-empty; every tag of
newRates has a queue with that rate installed; every surviving queue whose tag
is absent from newRates has no rate info; and size() counts exactly the
surviving queues, each of which is live. -/
theorem updateRates_live_queues (thr : GrvProxyTransactionTagThrottler)
    (newRates : List (Nat × ℚ)) (t : Nat)
    (hndr : (newRates.map Prod.fst).Nodup)
    (hndq : (thr.queues.map Prod.fst).Nodup) :
    ((alookup (thr.updateRates newRates).queues t).isSome ↔
      ((alookup newRates t).isSome ∨
       ∃ q, alookup thr.queues t = some q ∧ q.requests ≠ [])) ∧
    (∀ r, alookup newRates t = some r →
      ∃ q, alookup (thr.updateRates newRates).queues t = some q ∧
        ∃ ri, q.rateInfo = some ri ∧ ri.rate = r) ∧
    (alookup newRates t = none →
      ∀ q, alookup (thr.updateRates newRates).queues t = some q → q.rateInfo = none) ∧
    (thr.updateRates newRates).size = (thr.updateRates newRates).queues.length ∧
    (∀ p ∈ (thr.updateRates newRates).queues,
      ¬(p.2.requests = [] ∧ p.2.rateInfo = none)) := by
  have hl := updateRates_alookup thr newRates t hndr hndq
  refine ⟨?_, ?_, ?_, rfl, ?_⟩
  · rw [hl]
    rcases hA : alookup newRates t with _ | r <;>
      rcases hB : alookup thr.queues t with _ | q
    · simp
    · by_cases he : q.requests = [] <;> simp [he]
    · simp
    · simp
  · intro r hr
    rw [hl, hr]
    rcases hB : alookup thr.queues t with _ | q
    · exact ⟨TagQueue.ofRate r, rfl, (TagQueue.ofRate_spec r).1⟩
    · exact ⟨q.setRate r, rfl, (TagQueue.setRate_spec q r).1⟩
  · intro hr q2 hq2
    rw [hl, hr] at hq2
    rcases hB : alookup thr.queues t with _ | q <;> rw [hB] at hq2
    · simp at hq2
    · by_cases he : q.requests.isEmpty = true
      · simp [he] at hq2
      · simp [he] at hq2
        rw [← hq2]
  · intro p hp
    rintro ⟨h1, h2⟩
    replace hp : p ∈ updateRatesErase (updateRatesClean newRates
        (updateRatesAssign thr.queues newRates)) := hp
    unfold updateRatesErase at hp
    have hp2 := List.of_mem_filter hp
    simp [h1, h2] at hp2

theorem updateRates_live_queues_witness :
    ((c8rates.map Prod.fst).Nodup ∧ (c8throttler.queues.map Prod.fst).Nodup) ∧
    (((alookup (c8throttler.updateRates c8rates).queues 4).isSome ↔
       ((alookup c8rates 4).isSome ∨
        ∃ q, alookup c8throttler.queues 4 = some q ∧ q.requests ≠ [])) ∧
     (∀ r, alookup c8rates 4 = some r →
       ∃ q, alookup (c8throttler.updateRates c8rates).queues 4 = some q ∧
         ∃ ri, q.rateInfo = some ri ∧ ri.rate = r) ∧
     (alookup c8rates 4 = none →
       ∀ q, alookup (c8throttler.updateRates c8rates).queues 4 = some q →
         q.rateInfo = none) ∧
     (c8throttler.updateRates c8rates).size =
       (c8throttler.updateRates c8rates).queues.length ∧
     (∀ p ∈ (c8throttler.updateRates c8rates).queues,
       ¬(p.2.requests = [] ∧ p.2.rateInfo = none))) :=
  ⟨⟨by decide, by decide⟩,
   updateRates_live_queues c8throttler c8rates 4 (by decide) (by decide)⟩
